import Mathlib

/-!
Verification development for the replicated part-lifecycle state machine of
`StorageReplicatedMergeTree` (src/src/Storages/StorageReplicatedMergeTree.cpp).

The C++ code is shallowly embedded: part identities, ZooKeeper-side state and
the interference of concurrent replicas are made explicit data, and each
function under study is translated into an executable Lean function over that
data.  ZooKeeper multi-op version semantics are modelled with explicit version
counters; thrown C++ exceptions are modelled with explicit error values.
-/

namespace RMT

/-- Identity of a data part (`MergeTreePartInfo`): partition, block range,
level and mutation version. -/
structure MergeTreePartInfo where
  partition_id : String
  min_block : Int
  max_block : Int
  level : Nat
  mutation : Int
deriving DecidableEq, Repr

/-- Modelled from the spec: `MergeTreePartInfo::MAX_LEVEL` is declared in a
header that is not among the sources; the artificial maximal level used for
synthetic covering parts. -/
def MAX_LEVEL : Nat := 999999999

/-- Modelled from the spec: `MergeTreePartInfo::MAX_BLOCK_NUMBER`, the
artificial maximal mutation/block number used for synthetic covering parts. -/
def MAX_BLOCK_NUMBER : Int := 999999999

/-- Modelled from the spec: `MergeTreePartInfo::contains` is declared in a
header that is not among the sources.  The spec defines the covers relation:
part A covers part B iff A's block range contains B's and A's level and
mutation are consistent with having absorbed B. -/
def contains (a b : MergeTreePartInfo) : Bool :=
  a.partition_id = b.partition_id
    && a.min_block ≤ b.min_block
    && b.max_block ≤ a.max_block
    && b.level ≤ a.level
    && b.mutation ≤ a.mutation

/-- Number of block numbers covered by a part's block interval
(max_block - min_block + 1), as used by the source comments describing
drop ranges. -/
def blocksCount (p : MergeTreePartInfo) : Int :=
  p.max_block - p.min_block + 1

/-- Lifecycle state of a local data part (design note of the spec:
Temporary, PreCommitted, Committed, Outdated, Deleting; only the states
relevant to log replay are modelled). -/
inductive PartState where
  | PreCommitted
  | Committed
  | Outdated
deriving DecidableEq, Repr

/-- Local state of a replica relevant to `executeLogEntry`: the working set of
parts with their states, and the set of part names registered under this
replica's `parts` path in the coordination service. -/
structure ReplicaState where
  parts : List (MergeTreePartInfo × PartState)
  zkParts : List MergeTreePartInfo
deriving DecidableEq, Repr

/-- Names of all parts in the working set, regardless of state. -/
def ReplicaState.partNames (s : ReplicaState) : List MergeTreePartInfo :=
  s.parts.map (fun pr => pr.1)

/-- Embeds `getPartIfExists(name, {PreCommitted})`: a part with exactly this
name in the PreCommitted state. -/
def getPartIfExists (s : ReplicaState) (name : MergeTreePartInfo) :
    Option (MergeTreePartInfo × PartState) :=
  s.parts.find? (fun pr => pr.1 = name ∧ pr.2 = PartState.PreCommitted)

/-- Embeds `getActiveContainingPart(name)`: a Committed part whose block range
covers the given name. -/
def getActiveContainingPart (s : ReplicaState) (name : MergeTreePartInfo) :
    Option (MergeTreePartInfo × PartState) :=
  s.parts.find? (fun pr => pr.2 = PartState.Committed ∧ contains pr.1 name)

/-- The part found by the already-present check of `executeLogEntry`
(lines 1505-1508): first a PreCommitted part with the exact name, otherwise an
active covering part. -/
def alreadyPresent (s : ReplicaState) (name : MergeTreePartInfo) :
    Option MergeTreePartInfo :=
  match getPartIfExists s name with
  | some pr => some pr.1
  | none =>
    match getActiveContainingPart s name with
    | some pr => some pr.1
    | none => none

/-- Committing a fetched or attached part (`renameTempPartAndReplace` followed
by `checkPartChecksumsAndCommit`): the new part becomes Committed, Committed
parts covered by it become Outdated, and the part is registered under the
replica's `parts` path in the coordination service. -/
def commitPart (s : ReplicaState) (c : MergeTreePartInfo) : ReplicaState :=
  { parts :=
      (c, PartState.Committed) ::
        s.parts.map (fun pr =>
          if pr.2 = PartState.Committed ∧ contains c pr.1 then
            (pr.1, PartState.Outdated)
          else pr)
    zkParts := c :: s.zkParts }

/-- Variants of `LogEntry::type`. -/
inductive LogEntryType where
  | GET_PART
  | ATTACH_PART
  | MERGE_PARTS
  | MUTATE_PART
  | DROP_RANGE
  | REPLACE_RANGE
  | ALTER_METADATA
  | SYNC_PINNED_PART_UUIDS
  | CLONE_PART_FROM_SHARD
deriving DecidableEq, Repr

/-- The fields of a replication `LogEntry` used by `executeLogEntry`.
The `quorum` flag models a nonzero `entry.quorum` counter. -/
structure LogEntry where
  type : LogEntryType
  source_replica : String
  new_part_name : MergeTreePartInfo
  quorum : Bool
deriving DecidableEq, Repr

/-- Environment of one `executeLogEntry` call: the coordination-service and
peer-replica facts it consults.  `peerCovering` is the part name returned by
`findReplicaHavingCoveringPart` (the covering part held by the chosen active
peer, if any); `attachFound` tells whether `attachPartHelperFoundValidPart`
finds a valid detached local part with the entry's exact name;
`quorumFailMarked` tells whether the multi-op marking the quorum as failed
succeeds; the `exec*` fields abstract the executors of entry types whose
internals are not under study here. -/
structure World where
  zkFailedParts : List MergeTreePartInfo
  peerCovering : MergeTreePartInfo → Option MergeTreePartInfo
  attachFound : MergeTreePartInfo → Bool
  fetchSucceeds : Bool
  quorumFailMarked : Bool
  execDropRange : LogEntry → ReplicaState → ReplicaState
  execReplaceRange : LogEntry → ReplicaState → ReplicaState
  execOther : LogEntry → ReplicaState → (Bool × ReplicaState)

/-- Outcome of `executeLogEntry`: whether a C++ exception escaped, the boolean
return value otherwise, the resulting local state, whether the already-present
early return was taken, and whether `executeFetch` was invoked. -/
structure ExecResult where
  exc : Bool
  success : Bool
  state : ReplicaState
  skipped : Bool
  fetchInvoked : Bool
deriving DecidableEq, Repr

/-- Embeds `executeFetch` (lines 1584-1766), abstracting the bookkeeping of the
quorum-failure marking multi-op: if an active peer has the part or a covering
part, it is fetched and committed; otherwise a quorum entry is marked failed
(success) or an exception propagates (`NO_REPLICA_HAS_PART`, or
`LOGICAL_ERROR` for a quorum entry that is not GET_PART). -/
def executeFetch (w : World) (s : ReplicaState) (e : LogEntry) : ExecResult :=
  match w.peerCovering e.new_part_name with
  | some c =>
    if w.fetchSucceeds then ⟨false, true, commitPart s c, false, true⟩
    else ⟨false, false, s, false, true⟩
  | none =>
    if e.quorum then
      if e.type ≠ LogEntryType.GET_PART then ⟨true, false, s, false, true⟩
      else if w.quorumFailMarked then ⟨false, true, s, false, true⟩
      else ⟨true, false, s, false, true⟩
    else ⟨true, false, s, false, true⟩

/-- Embeds the tail of `executeLogEntry` after the already-present check
(lines 1521-1581): the ATTACH_PART local-part branch, the failed-quorum skip,
and the dispatch switch. -/
def executeLogEntryRest (w : World) (s : ReplicaState) (e : LogEntry) :
    ExecResult :=
  if e.type = LogEntryType.ATTACH_PART ∧ w.attachFound e.new_part_name then
    ⟨false, true, commitPart s e.new_part_name, false, false⟩
  else if e.quorum ∧ e.new_part_name ∈ w.zkFailedParts then
    ⟨false, true, s, false, false⟩
  else
    match e.type with
    | LogEntryType.ATTACH_PART => executeFetch w s e
    | LogEntryType.GET_PART => executeFetch w s e
    | LogEntryType.MERGE_PARTS => ⟨true, false, s, false, false⟩
    | LogEntryType.MUTATE_PART => ⟨true, false, s, false, false⟩
    | _ =>
      let r := w.execOther e s
      ⟨false, r.1, r.2, false, false⟩

/-- The complete already-present condition of lines 1505-1511: a local part
(PreCommitted exact or active covering) is found, and that part is registered
under the replica's `parts` path in the coordination service. -/
def alreadyPresentAndInZk (s : ReplicaState) (n : MergeTreePartInfo) : Bool :=
  match alreadyPresent s n with
  | some existing => decide (existing ∈ s.zkParts)
  | none => false

/-- Embeds `executeLogEntry` (lines 1484-1581): DROP_RANGE and REPLACE_RANGE
are dispatched to their executors; for GET_PART, ATTACH_PART, MERGE_PARTS and
MUTATE_PART, if a PreCommitted part with the entry's name or an active
covering part exists locally and that part is registered under the replica's
`parts` path in the coordination service, the entry is skipped with success. -/
def executeLogEntry (w : World) (s : ReplicaState) (e : LogEntry) : ExecResult :=
  if e.type = LogEntryType.DROP_RANGE then
    ⟨false, true, w.execDropRange e s, false, false⟩
  else if e.type = LogEntryType.REPLACE_RANGE then
    ⟨false, true, w.execReplaceRange e s, false, false⟩
  else
    let relevant :=
      e.type = LogEntryType.GET_PART ∨ e.type = LogEntryType.ATTACH_PART
        ∨ e.type = LogEntryType.MERGE_PARTS ∨ e.type = LogEntryType.MUTATE_PART
    if relevant then
      if alreadyPresentAndInZk s e.new_part_name then ⟨false, true, s, true, false⟩
      else executeLogEntryRest w s e
    else
      executeLogEntryRest w s e

/-- A world with no peers, no failed quorum parts and no detached parts;
concrete scenarios below override individual fields. -/
def trivWorld : World where
  zkFailedParts := []
  peerCovering := fun _ => none
  attachFound := fun _ => false
  fetchSucceeds := true
  quorumFailMarked := false
  execDropRange := fun _ s => s
  execReplaceRange := fun _ s => s
  execOther := fun _ s => (true, s)

/-- A one-block part used in concrete scenarios. -/
def part_1_1 : MergeTreePartInfo := ⟨"p", 1, 1, 0, 0⟩

/-- A part strictly covering `part_1_1`, used in concrete scenarios. -/
def part_0_2 : MergeTreePartInfo := ⟨"p", 0, 2, 1, 0⟩

/-- A world where an active peer holds the covering part `part_0_2`. -/
def peerWorld : World := { trivWorld with peerCovering := fun _ => some part_0_2 }

/-- A world where the quorum for `part_1_1` has been marked failed. -/
def failedQuorumWorld : World := { trivWorld with zkFailedParts := [part_1_1] }

/-- A world where the quorum for `part_1_1` has been marked failed and a valid
detached local part for it exists. -/
def failedQuorumAttachWorld : World :=
  { trivWorld with
      zkFailedParts := [part_1_1],
      attachFound := fun _ => true }

lemma executeFetch_fetchInvoked (w : World) (s : ReplicaState) (e : LogEntry) :
    (executeFetch w s e).fetchInvoked = true := by
  unfold executeFetch
  split <;> (try split) <;> (try split) <;> (try split) <;> rfl

lemma executeFetch_skipped (w : World) (s : ReplicaState) (e : LogEntry) :
    (executeFetch w s e).skipped = false := by
  unfold executeFetch
  split <;> (try split) <;> (try split) <;> (try split) <;> rfl

lemma executeLogEntryRest_skipped (w : World) (s : ReplicaState) (e : LogEntry) :
    (executeLogEntryRest w s e).skipped = false := by
  unfold executeLogEntryRest
  split
  · simp
  · split
    · simp
    · cases e.type <;> simp [executeFetch_skipped]

lemma alreadyPresentAndInZk_true {s : ReplicaState} {n ex : MergeTreePartInfo}
    (hex : alreadyPresent s n = some ex) (hzk : ex ∈ s.zkParts) :
    alreadyPresentAndInZk s n = true := by
  unfold alreadyPresentAndInZk
  rw [hex]
  exact decide_eq_true hzk

lemma alreadyPresentAndInZk_false {s : ReplicaState} {n ex : MergeTreePartInfo}
    (hex : alreadyPresent s n = some ex) (hzk : ex ∉ s.zkParts) :
    alreadyPresentAndInZk s n = false := by
  unfold alreadyPresentAndInZk
  rw [hex]
  exact decide_eq_false hzk

/-- C1 (amended): for a GET_PART, ATTACH_PART, MERGE_PARTS or MUTATE_PART
entry, if the replica already holds the entry's new_part_name as a
PreCommitted part or via an active covering part, and that part is registered
under the replica's parts path in the coordination service, then
executeLogEntry returns success without changing the replica's state, so
executing the same entry twice yields the same part set as executing it
once. -/
theorem executeLogEntry_already_present_skip
    (w : World) (s : ReplicaState) (e : LogEntry)
    (htype : e.type = LogEntryType.GET_PART ∨ e.type = LogEntryType.ATTACH_PART
      ∨ e.type = LogEntryType.MERGE_PARTS ∨ e.type = LogEntryType.MUTATE_PART)
    (ex : MergeTreePartInfo)
    (hex : alreadyPresent s e.new_part_name = some ex)
    (hzk : ex ∈ s.zkParts) :
    executeLogEntry w s e = ⟨false, true, s, true, false⟩ ∧
    executeLogEntry w (executeLogEntry w s e).state e = executeLogEntry w s e := by
  have hdr : ¬ e.type = LogEntryType.DROP_RANGE := by
    rcases htype with h | h | h | h <;> simp [h]
  have hrr : ¬ e.type = LogEntryType.REPLACE_RANGE := by
    rcases htype with h | h | h | h <;> simp [h]
  have honce : executeLogEntry w s e = ⟨false, true, s, true, false⟩ := by
    unfold executeLogEntry
    rw [if_neg hdr, if_neg hrr, if_pos htype, alreadyPresentAndInZk_true hex hzk,
      if_pos rfl]
  refine ⟨honce, ?_⟩
  rw [honce]
  exact honce

/-- C1 witness: a concrete GET_PART entry for a part the replica holds
PreCommitted and has registered in the coordination service is skipped with
success and unchanged state. -/
theorem executeLogEntry_already_present_skip_witness :
    executeLogEntry trivWorld
        ⟨[(part_1_1, PartState.PreCommitted)], [part_1_1]⟩
        ⟨LogEntryType.GET_PART, "r2", part_1_1, false⟩
      = ⟨false, true, ⟨[(part_1_1, PartState.PreCommitted)], [part_1_1]⟩,
          true, false⟩ :=
  (executeLogEntry_already_present_skip trivWorld
    ⟨[(part_1_1, PartState.PreCommitted)], [part_1_1]⟩
    ⟨LogEntryType.GET_PART, "r2", part_1_1, false⟩
    (Or.inl rfl) part_1_1 (by decide) (by decide)).1

/-- C1, counterexample to the claim as stated: a replica that holds the
entry's part as a PreCommitted part but has no node for it under its parts
path in the coordination service does not skip the entry; the re-fetch brings
in a covering part from a peer, so executeLogEntry returns success having
changed the part set. -/
theorem executeLogEntry_already_present_not_sufficient :
    (alreadyPresent ⟨[(part_1_1, PartState.PreCommitted)], []⟩ part_1_1).isSome
      = true ∧
    (executeLogEntry peerWorld ⟨[(part_1_1, PartState.PreCommitted)], []⟩
        ⟨LogEntryType.GET_PART, "r2", part_1_1, false⟩).exc = false ∧
    (executeLogEntry peerWorld ⟨[(part_1_1, PartState.PreCommitted)], []⟩
        ⟨LogEntryType.GET_PART, "r2", part_1_1, false⟩).success = true ∧
    (executeLogEntry peerWorld ⟨[(part_1_1, PartState.PreCommitted)], []⟩
          ⟨LogEntryType.GET_PART, "r2", part_1_1, false⟩).state.partNames
      ≠ (⟨[(part_1_1, PartState.PreCommitted)], []⟩ : ReplicaState).partNames := by
  refine ⟨by decide, by decide, by decide, by decide⟩

/-- C9: for a GET_PART, ATTACH_PART, MERGE_PARTS or MUTATE_PART entry whose
part exists locally (PreCommitted with the exact name, or an active covering
part) but whose found part has no node under the replica's parts path in the
coordination service, the entry is not skipped, and for a GET_PART entry not
stopped by the failed-quorum check the execution proceeds to a re-fetch. -/
theorem executeLogEntry_no_zk_node_not_skipped
    (w : World) (s : ReplicaState) (e : LogEntry)
    (htype : e.type = LogEntryType.GET_PART ∨ e.type = LogEntryType.ATTACH_PART
      ∨ e.type = LogEntryType.MERGE_PARTS ∨ e.type = LogEntryType.MUTATE_PART)
    (ex : MergeTreePartInfo)
    (hex : alreadyPresent s e.new_part_name = some ex)
    (hzk : ex ∉ s.zkParts) :
    (executeLogEntry w s e).skipped = false ∧
    (e.type = LogEntryType.GET_PART →
      ¬ (e.quorum ∧ e.new_part_name ∈ w.zkFailedParts) →
      (executeLogEntry w s e).fetchInvoked = true) := by
  have hdr : ¬ e.type = LogEntryType.DROP_RANGE := by
    rcases htype with h | h | h | h <;> simp [h]
  have hrr : ¬ e.type = LogEntryType.REPLACE_RANGE := by
    rcases htype with h | h | h | h <;> simp [h]
  have hrest : executeLogEntry w s e = executeLogEntryRest w s e := by
    unfold executeLogEntry
    rw [if_neg hdr, if_neg hrr, if_pos htype, alreadyPresentAndInZk_false hex hzk]
    simp
  refine ⟨by rw [hrest]; exact executeLogEntryRest_skipped w s e, ?_⟩
  intro hget hnq
  rw [hrest]
  unfold executeLogEntryRest
  rw [if_neg (by simp [hget]), if_neg hnq, hget]
  exact executeFetch_fetchInvoked w s e

/-- C9 witness: a concrete replica holding the requested part PreCommitted
with an empty coordination-service part list does not skip the GET_PART entry
and proceeds to fetch. -/
theorem executeLogEntry_no_zk_node_not_skipped_witness :
    (executeLogEntry trivWorld ⟨[(part_1_1, PartState.PreCommitted)], []⟩
        ⟨LogEntryType.GET_PART, "r2", part_1_1, false⟩).skipped = false ∧
    (executeLogEntry trivWorld ⟨[(part_1_1, PartState.PreCommitted)], []⟩
        ⟨LogEntryType.GET_PART, "r2", part_1_1, false⟩).fetchInvoked = true := by
  have h := executeLogEntry_no_zk_node_not_skipped trivWorld
    ⟨[(part_1_1, PartState.PreCommitted)], []⟩
    ⟨LogEntryType.GET_PART, "r2", part_1_1, false⟩
    (Or.inl rfl) part_1_1 (by decide) (by decide)
  exact ⟨h.1, h.2 rfl (by decide)⟩

/-- C10 (amended): for a GET_PART entry carrying a quorum marker whose part is
listed under the failed-parts path, and likewise for such an ATTACH_PART entry
for which no valid detached local part is found, executeLogEntry returns
success without fetching and without modifying the local state; moreover for
every GET_PART or ATTACH_PART entry with a quorum marker and a failed-parts
listing, no fetch is ever invoked (an ATTACH_PART entry with a valid detached
local part is materialized locally, before the failed-quorum check, still
without fetching). -/
theorem executeLogEntry_failed_quorum_no_fetch :
    (∀ (w : World) (s : ReplicaState) (e : LogEntry),
      e.quorum = true → e.new_part_name ∈ w.zkFailedParts →
      (e.type = LogEntryType.GET_PART ∨
        (e.type = LogEntryType.ATTACH_PART
          ∧ w.attachFound e.new_part_name = false)) →
      (executeLogEntry w s e).exc = false ∧
      (executeLogEntry w s e).success = true ∧
      (executeLogEntry w s e).state = s ∧
      (executeLogEntry w s e).fetchInvoked = false) ∧
    (∀ (w : World) (s : ReplicaState) (e : LogEntry),
      e.quorum = true → e.new_part_name ∈ w.zkFailedParts →
      (e.type = LogEntryType.GET_PART ∨ e.type = LogEntryType.ATTACH_PART) →
      (executeLogEntry w s e).fetchInvoked = false) := by
  constructor
  · intro w s e hq hmem htype
    have htype4 : e.type = LogEntryType.GET_PART
        ∨ e.type = LogEntryType.ATTACH_PART
        ∨ e.type = LogEntryType.MERGE_PARTS
        ∨ e.type = LogEntryType.MUTATE_PART := by
      rcases htype with h | h
      · exact Or.inl h
      · exact Or.inr (Or.inl h.1)
    have hdr : ¬ e.type = LogEntryType.DROP_RANGE := by
      rcases htype4 with h | h | h | h <;> simp [h]
    have hrr : ¬ e.type = LogEntryType.REPLACE_RANGE := by
      rcases htype4 with h | h | h | h <;> simp [h]
    have hrest : executeLogEntryRest w s e = ⟨false, true, s, false, false⟩ := by
      unfold executeLogEntryRest
      have hna : ¬ (e.type = LogEntryType.ATTACH_PART
          ∧ w.attachFound e.new_part_name) := by
        rcases htype with h | h
        · intro hc; rw [h] at hc; exact absurd hc.1 (by simp)
        · intro hc; rw [h.2] at hc; exact absurd hc.2 (by simp)
      rw [if_neg hna, if_pos ⟨hq, hmem⟩]
    unfold executeLogEntry
    rw [if_neg hdr, if_neg hrr, if_pos htype4]
    cases hb : alreadyPresentAndInZk s e.new_part_name
    · simp [hb, hrest]
    · simp [hb]
  · intro w s e hq hmem htype
    have htype4 : e.type = LogEntryType.GET_PART
        ∨ e.type = LogEntryType.ATTACH_PART
        ∨ e.type = LogEntryType.MERGE_PARTS
        ∨ e.type = LogEntryType.MUTATE_PART := by
      rcases htype with h | h
      · exact Or.inl h
      · exact Or.inr (Or.inl h)
    have hdr : ¬ e.type = LogEntryType.DROP_RANGE := by
      rcases htype4 with h | h | h | h <;> simp [h]
    have hrr : ¬ e.type = LogEntryType.REPLACE_RANGE := by
      rcases htype4 with h | h | h | h <;> simp [h]
    have hrest : (executeLogEntryRest w s e).fetchInvoked = false := by
      unfold executeLogEntryRest
      split
      · simp
      · rw [if_pos ⟨hq, hmem⟩]
    unfold executeLogEntry
    rw [if_neg hdr, if_neg hrr, if_pos htype4]
    cases hb : alreadyPresentAndInZk s e.new_part_name
    · simp only [hb, Bool.false_eq_true, if_false]
      exact hrest
    · simp only [hb, if_true]

/-- C10 witness: a concrete GET_PART entry with a quorum marker and a
failed-parts listing is skipped with success, unchanged state and no fetch. -/
theorem executeLogEntry_failed_quorum_no_fetch_witness :
    (executeLogEntry failedQuorumWorld (⟨[], []⟩ : ReplicaState)
        ⟨LogEntryType.GET_PART, "r2", part_1_1, true⟩).success = true ∧
    (executeLogEntry failedQuorumWorld (⟨[], []⟩ : ReplicaState)
        ⟨LogEntryType.GET_PART, "r2", part_1_1, true⟩).state
      = (⟨[], []⟩ : ReplicaState) ∧
    (executeLogEntry failedQuorumWorld (⟨[], []⟩ : ReplicaState)
        ⟨LogEntryType.GET_PART, "r2", part_1_1, true⟩).fetchInvoked = false := by
  have h := executeLogEntry_failed_quorum_no_fetch.1
    failedQuorumWorld (⟨[], []⟩ : ReplicaState)
    ⟨LogEntryType.GET_PART, "r2", part_1_1, true⟩
    rfl (by decide) (Or.inl rfl)
  exact ⟨h.2.1, h.2.2.1, h.2.2.2⟩

/-- C10, counterexample to the claim as stated: an ATTACH_PART entry with a
quorum marker whose part is listed under the failed-parts path, for which a
valid detached local part exists, is not a no-op: executeLogEntry returns
success but the local part set has changed (the part was attached before the
failed-quorum check). -/
theorem executeLogEntry_failed_quorum_attach_modifies :
    (⟨LogEntryType.ATTACH_PART, "r2", part_1_1, true⟩ : LogEntry).quorum
      = true ∧
    part_1_1 ∈ failedQuorumAttachWorld.zkFailedParts ∧
    (executeLogEntry failedQuorumAttachWorld (⟨[], []⟩ : ReplicaState)
        ⟨LogEntryType.ATTACH_PART, "r2", part_1_1, true⟩).success = true ∧
    (executeLogEntry failedQuorumAttachWorld (⟨[], []⟩ : ReplicaState)
          ⟨LogEntryType.ATTACH_PART, "r2", part_1_1, true⟩).state.partNames
      ≠ (⟨[], []⟩ : ReplicaState).partNames := by
  refine ⟨by decide, by decide, by decide, by decide⟩

/-! Quorum write tracking: `updateQuorum` (lines 3426-3529). -/

/-- The quorum entry stored at `quorum/status` (or `quorum/parallel/<part>`):
the part being written, the required confirmation count, and the set of
replicas that confirmed it. -/
structure ReplicatedMergeTreeQuorumEntry where
  part_name : MergeTreePartInfo
  required_number_of_replicas : Nat
  replicas : List String
deriving DecidableEq, Repr

/-- Set-insertion into the confirmation set (`std::set::insert`). -/
def insertReplica (r : String) (rs : List String) : List String :=
  if r ∈ rs then rs else r :: rs

/-- Updating the per-partition map of last quorum parts
(`parts_with_quorum.added_parts[partition_id] = part_name`). -/
def setLastPartFor (m : List (String × MergeTreePartInfo)) (pid : String)
    (p : MergeTreePartInfo) : List (String × MergeTreePartInfo) :=
  (pid, p) :: m.filter (fun kv => ¬ kv.1 = pid)

/-- Lookup in the per-partition map of last quorum parts. -/
def lookupLastPart (m : List (String × MergeTreePartInfo)) (pid : String) :
    Option MergeTreePartInfo :=
  (m.find? (fun kv => kv.1 = pid)).map (fun kv => kv.2)

/-- The ZooKeeper state `updateQuorum` works against: the quorum status node
with its version, and the `quorum/last_part` node with its version.  Every
write to a node bumps its version, which is what the version-checked multi-op
tests. -/
structure QuorumZkState where
  status : Option ReplicatedMergeTreeQuorumEntry
  statusVersion : Nat
  lastPart : List (String × MergeTreePartInfo)
  lastPartVersion : Nat
deriving DecidableEq, Repr

/-- One interference step by concurrent replicas, applied between this
replica's read and its version-checked write. -/
inductive EnvOp where
  | idle
  | setStatus (q : Option ReplicatedMergeTreeQuorumEntry)
  | setLastPart (m : List (String × MergeTreePartInfo))
deriving Repr

/-- Applying an interference step; any write bumps the node's version. -/
def applyEnv : EnvOp → QuorumZkState → QuorumZkState
  | EnvOp.idle, z => z
  | EnvOp.setStatus q, z =>
    { z with status := q, statusVersion := z.statusVersion + 1 }
  | EnvOp.setLastPart m, z =>
    { z with lastPart := m, lastPartVersion := z.lastPartVersion + 1 }

/-- How one call of `updateQuorum` can end. -/
inductive QuorumOutcome where
  | won
  | alreadyAchieved
  | updated
deriving DecidableEq, Repr

/-- Result of one iteration of the `updateQuorum` loop: finished with an
outcome, or a version conflict (ZBADVERSION) forcing a re-read. -/
inductive QuorumIter where
  | done (z : QuorumZkState) (o : QuorumOutcome)
  | retry (z : QuorumZkState)
deriving Repr

/-- One iteration of the `updateQuorum` loop body (lines 3441-3527): re-read
the quorum entry; if absent or naming another part, the quorum was already
achieved; otherwise add this replica and either delete the entry while
recording the last quorum part (one version-checked multi-op) when the size
reaches the requirement, or write back the enlarged entry (version-checked
set).  ZNONODE means someone else achieved the quorum; ZBADVERSION means
re-read and repeat. -/
def quorumIter (replica : String) (p : MergeTreePartInfo) (is_parallel : Bool)
    (env : EnvOp) (z : QuorumZkState) : QuorumIter :=
  match z.status with
  | none => QuorumIter.done z QuorumOutcome.alreadyAchieved
  | some q =>
    if ¬ q.part_name = p then QuorumIter.done z QuorumOutcome.alreadyAchieved
    else
      let q' := { q with replicas := insertReplica replica q.replicas }
      let z1 := applyEnv env z
      if q.required_number_of_replicas ≤ q'.replicas.length then
        match z1.status with
        | none => QuorumIter.done z1 QuorumOutcome.alreadyAchieved
        | some _ =>
          if z1.statusVersion = z.statusVersion
              ∧ (is_parallel ∨ z1.lastPartVersion = z.lastPartVersion) then
            QuorumIter.done
              { status := none
                statusVersion := z1.statusVersion + 1
                lastPart :=
                  if is_parallel then z1.lastPart
                  else setLastPartFor z1.lastPart p.partition_id p
                lastPartVersion :=
                  if is_parallel then z1.lastPartVersion
                  else z1.lastPartVersion + 1 }
              QuorumOutcome.won
          else QuorumIter.retry z1
      else
        match z1.status with
        | none => QuorumIter.done z1 QuorumOutcome.alreadyAchieved
        | some _ =>
          if z1.statusVersion = z.statusVersion then
            QuorumIter.done
              { z1 with status := some q', statusVersion := z1.statusVersion + 1 }
              QuorumOutcome.updated
          else QuorumIter.retry z1

/-- Embeds the `updateQuorum` while-loop, parametrized by the finite schedule
of interference steps performed by concurrent replicas (one per iteration;
once the schedule is exhausted no further interference occurs, so the final
iteration cannot hit a version conflict and the loop exits). -/
def updateQuorum (replica : String) (p : MergeTreePartInfo)
    (is_parallel : Bool) :
    List EnvOp → QuorumZkState → QuorumZkState × QuorumOutcome
  | [], z =>
    match quorumIter replica p is_parallel EnvOp.idle z with
    | QuorumIter.done z1 o => (z1, o)
    | QuorumIter.retry z1 => (z1, QuorumOutcome.alreadyAchieved)
  | env :: rest, z =>
    match quorumIter replica p is_parallel env z with
    | QuorumIter.done z1 o => (z1, o)
    | QuorumIter.retry z1 => updateQuorum replica p is_parallel rest z1

lemma insertReplica_mem (r : String) (rs : List String) :
    r ∈ insertReplica r rs := by
  unfold insertReplica
  split
  · assumption
  · exact List.mem_cons_self r rs

lemma lookupLastPart_setLastPartFor (m : List (String × MergeTreePartInfo))
    (pid : String) (p : MergeTreePartInfo) :
    lookupLastPart (setLastPartFor m pid p) pid = some p := by
  unfold lookupLastPart setLastPartFor
  simp [List.find?]

/-- The interference-free iteration never hits a version conflict. -/
lemma quorumIter_idle_no_retry (replica : String) (p : MergeTreePartInfo)
    (is_parallel : Bool) (z z1 : QuorumZkState) :
    ¬ quorumIter replica p is_parallel EnvOp.idle z = QuorumIter.retry z1 := by
  unfold quorumIter
  cases hs : z.status with
  | none => simp
  | some q =>
    simp only [applyEnv, hs]
    split
    · simp
    · split <;> simp

/-- Case analysis of one `updateQuorum` iteration: winning deletes the status
node and records the last quorum part; observing the quorum achieved leaves a
status that is gone or names another part; updating stores this replica's
confirmation while the quorum is not yet reached. -/
lemma quorumIter_spec (replica : String) (p : MergeTreePartInfo)
    (is_parallel : Bool) (env : EnvOp) (z z1 : QuorumZkState) :
    (quorumIter replica p is_parallel env z
        = QuorumIter.done z1 QuorumOutcome.won →
      z1.status = none ∧
        (is_parallel = false →
          lookupLastPart z1.lastPart p.partition_id = some p)) ∧
    (quorumIter replica p is_parallel env z
        = QuorumIter.done z1 QuorumOutcome.alreadyAchieved →
      z1.status = none
        ∨ ∃ q, z1.status = some q ∧ ¬ q.part_name = p) ∧
    (quorumIter replica p is_parallel env z
        = QuorumIter.done z1 QuorumOutcome.updated →
      ∃ q, z1.status = some q ∧ replica ∈ q.replicas ∧
        q.replicas.length < q.required_number_of_replicas) := by
  rcases hs : z.status with _ | q
  · simp only [quorumIter, hs]
    refine ⟨?_, ?_, ?_⟩ <;> intro h <;> cases h
    exact Or.inl hs
  · simp only [quorumIter, hs]
    by_cases hpq : q.part_name = p
    · rw [if_neg (not_not_intro hpq)]
      by_cases hlen : q.required_number_of_replicas
          ≤ (insertReplica replica q.replicas).length
      · rw [if_pos hlen]
        rcases hz1 : (applyEnv env z).status with _ | q1
        · simp only [hz1]
          refine ⟨?_, ?_, ?_⟩ <;> intro h <;> cases h
          exact Or.inl hz1
        · simp only [hz1]
          by_cases hver : (applyEnv env z).statusVersion = z.statusVersion
              ∧ (is_parallel = true
                ∨ (applyEnv env z).lastPartVersion = z.lastPartVersion)
          · rw [if_pos hver]
            refine ⟨?_, ?_, ?_⟩ <;> intro h <;> cases h
            refine ⟨rfl, ?_⟩
            intro hip
            simp [hip, lookupLastPart_setLastPartFor]
          · rw [if_neg hver]
            refine ⟨?_, ?_, ?_⟩ <;> intro h <;> cases h
      · rw [if_neg hlen]
        rcases hz1 : (applyEnv env z).status with _ | q1
        · simp only [hz1]
          refine ⟨?_, ?_, ?_⟩ <;> intro h <;> cases h
          exact Or.inl hz1
        · simp only [hz1]
          by_cases hver : (applyEnv env z).statusVersion = z.statusVersion
          · rw [if_pos hver]
            refine ⟨?_, ?_, ?_⟩ <;> intro h <;> cases h
            exact ⟨{ q with replicas := insertReplica replica q.replicas },
              rfl, insertReplica_mem replica q.replicas,
              Nat.lt_of_not_le hlen⟩
          · rw [if_neg hver]
            refine ⟨?_, ?_, ?_⟩ <;> intro h <;> cases h
    · rw [if_pos hpq]
      refine ⟨?_, ?_, ?_⟩ <;> intro h <;> cases h
      exact Or.inr ⟨q, hs, hpq⟩

/-- Outcome characterization of the whole `updateQuorum` loop, for every
finite interference schedule. -/
lemma updateQuorum_outcomes (replica : String) (p : MergeTreePartInfo)
    (is_parallel : Bool) :
    ∀ (envs : List EnvOp) (z z1 : QuorumZkState) (o : QuorumOutcome),
    updateQuorum replica p is_parallel envs z = (z1, o) →
      (o = QuorumOutcome.won →
        z1.status = none ∧
          (is_parallel = false →
            lookupLastPart z1.lastPart p.partition_id = some p)) ∧
      (o = QuorumOutcome.alreadyAchieved →
        z1.status = none
          ∨ ∃ q, z1.status = some q ∧ ¬ q.part_name = p) ∧
      (o = QuorumOutcome.updated →
        ∃ q, z1.status = some q ∧ replica ∈ q.replicas ∧
          q.replicas.length < q.required_number_of_replicas)
  | [], z, z1, o, h => by
    revert h
    unfold updateQuorum
    cases hit : quorumIter replica p is_parallel EnvOp.idle z with
    | done z2 o2 =>
      intro h
      have h1 : z2 = z1 := congrArg Prod.fst h
      have h2 : o2 = o := congrArg Prod.snd h
      subst h1
      subst h2
      have hspec := quorumIter_spec replica p is_parallel EnvOp.idle z z2
      refine ⟨?_, ?_, ?_⟩ <;> intro ho <;> rw [ho] at hit
      · exact hspec.1 hit
      · exact hspec.2.1 hit
      · exact hspec.2.2 hit
    | retry z2 =>
      intro h
      exact absurd hit (quorumIter_idle_no_retry replica p is_parallel z z2)
  | env :: rest, z, z1, o, h => by
    revert h
    unfold updateQuorum
    cases hit : quorumIter replica p is_parallel env z with
    | done z2 o2 =>
      intro h
      have h1 : z2 = z1 := congrArg Prod.fst h
      have h2 : o2 = o := congrArg Prod.snd h
      subst h1
      subst h2
      have hspec := quorumIter_spec replica p is_parallel env z z2
      refine ⟨?_, ?_, ?_⟩ <;> intro ho <;> rw [ho] at hit
      · exact hspec.1 hit
      · exact hspec.2.1 hit
      · exact hspec.2.2 hit
    | retry z2 =>
      intro h
      exact updateQuorum_outcomes replica p is_parallel rest z2 z1 o h

/-- C2: for every interference schedule of concurrent replicas, updateQuorum
terminates with one of three outcomes: it wins, in which case the in-flight
quorum entry has been deleted and the part recorded as its partition's last
quorum part in a single version-checked multi-op; it observes the quorum
already achieved by another replica (status node gone or naming another
part); or it registers this replica while the confirmation set is still below
required_number_of_replicas.  Any version conflict is handled by re-reading
and repeating the iteration, never surfaced. -/
theorem updateQuorum_correct (replica : String) (p : MergeTreePartInfo)
    (is_parallel : Bool) (envs : List EnvOp) (z : QuorumZkState) :
    ((updateQuorum replica p is_parallel envs z).2 = QuorumOutcome.won →
      (updateQuorum replica p is_parallel envs z).1.status = none ∧
        (is_parallel = false →
          lookupLastPart (updateQuorum replica p is_parallel envs z).1.lastPart
            p.partition_id = some p)) ∧
    ((updateQuorum replica p is_parallel envs z).2
        = QuorumOutcome.alreadyAchieved →
      (updateQuorum replica p is_parallel envs z).1.status = none
        ∨ ∃ q, (updateQuorum replica p is_parallel envs z).1.status = some q
            ∧ ¬ q.part_name = p) ∧
    ((updateQuorum replica p is_parallel envs z).2 = QuorumOutcome.updated →
      ∃ q, (updateQuorum replica p is_parallel envs z).1.status = some q ∧
        replica ∈ q.replicas ∧
        q.replicas.length < q.required_number_of_replicas) ∧
    (∀ (env : EnvOp) (rest : List EnvOp) (z1 : QuorumZkState),
      quorumIter replica p is_parallel env z = QuorumIter.retry z1 →
      updateQuorum replica p is_parallel (env :: rest) z
        = updateQuorum replica p is_parallel rest z1) := by
  have h := updateQuorum_outcomes replica p is_parallel envs z
    (updateQuorum replica p is_parallel envs z).1
    (updateQuorum replica p is_parallel envs z).2 rfl
  refine ⟨h.1, h.2.1, h.2.2, ?_⟩
  intro env rest z1 hretry
  have hstep : updateQuorum replica p is_parallel (env :: rest) z
      = match quorumIter replica p is_parallel env z with
        | QuorumIter.done z2 o => (z2, o)
        | QuorumIter.retry z2 => updateQuorum replica p is_parallel rest z2 :=
    rfl
  rw [hstep, hretry]

/-- A quorum entry for `part_1_1` requiring 2 confirmations, already confirmed
by replica r1. -/
def quorumScenario : QuorumZkState :=
  { status := some ⟨part_1_1, 2, ["r1"]⟩
    statusVersion := 0
    lastPart := []
    lastPartVersion := 0 }

/-- C2 witness: replica r2 completes the quorum of 2 on `part_1_1` without
interference: the status node is deleted and the part becomes the partition's
last quorum part. -/
theorem updateQuorum_correct_witness :
    (updateQuorum "r2" part_1_1 false [] quorumScenario).2
      = QuorumOutcome.won ∧
    (updateQuorum "r2" part_1_1 false [] quorumScenario).1.status = none ∧
    lookupLastPart (updateQuorum "r2" part_1_1 false [] quorumScenario).1.lastPart
      part_1_1.partition_id = some part_1_1 := by
  have hw : (updateQuorum "r2" part_1_1 false [] quorumScenario).2
      = QuorumOutcome.won := by decide
  have h := (updateQuorum_correct "r2" part_1_1 false [] quorumScenario).1 hw
  exact ⟨hw, h.1, h.2 rfl⟩

/-! Replica repair: `cloneReplicaIfNeeded` (lines 2541-2667). -/

/-- The per-replica repair-relevant ZooKeeper and local state: the value of
the replica's `is_lost` node (absent for very old replicas), the local queue,
and a marker for the effects of a completed `cloneReplica` (queue and parts
mimicked from the source replica). -/
structure RepairState where
  is_lost : Option String
  queue : List String
  cloned : Bool
deriving DecidableEq, Repr

/-- Embeds `cloneReplicaIfNeeded`: if `is_lost` is absent it is created as "0"
and nothing else happens; if it reads "0" nothing happens; otherwise a source
replica is chosen (`sourceFound` abstracts whether any non-lost candidate
exists; if none, ALL_REPLICAS_LOST is thrown), the local queue is cleared,
`cloneReplica` runs (`cloneOk` abstracts whether any of its steps throws), and
only after it returns successfully is `is_lost` set back to "0".  The returned
Bool is true when an exception escaped; the state is the one at the moment of
the throw. -/
def cloneReplicaIfNeeded (sourceFound : Bool) (cloneOk : Bool)
    (s : RepairState) : Bool × RepairState :=
  match s.is_lost with
  | none => (false, { s with is_lost := some "0" })
  | some v =>
    if v = "0" then (false, s)
    else
      if ¬ sourceFound then (true, s)
      else
        let s1 : RepairState := { s with queue := [] }
        if ¬ cloneOk then (true, s1)
        else (false, { s1 with cloned := true, is_lost := some "0" })

/-- C3: repair is crash-safe: starting from a replica marked lost (is_lost
"1"), is_lost ends up "0" exactly when no step
threw and the full clone sequence (queue cleared, source cloned) completed;
whenever any step throws, is_lost is still "1", so the repair restarts from
scratch on the next attempt. -/
theorem cloneReplicaIfNeeded_crash_safe (sourceFound cloneOk : Bool)
    (s : RepairState) (hlost : s.is_lost = some "1") :
    ((cloneReplicaIfNeeded sourceFound cloneOk s).2.is_lost = some "0" ↔
      ((cloneReplicaIfNeeded sourceFound cloneOk s).1 = false ∧
        (cloneReplicaIfNeeded sourceFound cloneOk s).2.cloned = true ∧
        (cloneReplicaIfNeeded sourceFound cloneOk s).2.queue = [])) ∧
    ((cloneReplicaIfNeeded sourceFound cloneOk s).1 = true →
      (cloneReplicaIfNeeded sourceFound cloneOk s).2.is_lost = some "1") := by
  have hval : cloneReplicaIfNeeded sourceFound cloneOk s =
      (if ¬ sourceFound then (true, s)
       else if ¬ cloneOk then (true, { s with queue := [] })
       else (false,
         { is_lost := some "0", queue := [], cloned := true })) := by
    unfold cloneReplicaIfNeeded
    simp only [hlost]
    rw [if_neg (by decide : ¬ ("1" : String) = "0")]
  cases sourceFound
  · rw [hval, if_pos (by decide : ¬ (false = true))]
    refine ⟨⟨?_, ?_⟩, ?_⟩
    · intro h
      have h1 : s.is_lost = some "0" := h
      rw [hlost] at h1
      exact absurd h1 (by decide)
    · intro h
      have hb : (true : Bool) = false := h.1
      exact absurd hb (by decide)
    · intro _
      exact hlost
  · rw [hval, if_neg (by decide : ¬ ¬ (true = true))]
    cases cloneOk
    · rw [if_pos (by decide : ¬ (false = true))]
      refine ⟨⟨?_, ?_⟩, ?_⟩
      · intro h
        have h1 : s.is_lost = some "0" := h
        rw [hlost] at h1
        exact absurd h1 (by decide)
      · intro h
        have hb : (true : Bool) = false := h.1
        exact absurd hb (by decide)
      · intro _
        exact hlost
    · rw [if_neg (by decide : ¬ ¬ (true = true))]
      refine ⟨⟨fun _ => ⟨rfl, rfl, rfl⟩, fun _ => rfl⟩, ?_⟩
      intro h
      have hb : (false : Bool) = true := h
      exact absurd hb (by decide)

/-- C3 witness: with a live source and a successful clone, is_lost ends "0"
with the clone applied; with a failing clone, the exception leaves is_lost
"1". -/
theorem cloneReplicaIfNeeded_crash_safe_witness :
    (cloneReplicaIfNeeded true true ⟨some "1", ["q1"], false⟩).2.is_lost
      = some "0" ∧
    (cloneReplicaIfNeeded true true ⟨some "1", ["q1"], false⟩).2.cloned
      = true ∧
    (cloneReplicaIfNeeded true false ⟨some "1", ["q1"], false⟩).2.is_lost
      = some "1" := by
  have h1 := cloneReplicaIfNeeded_crash_safe true true
    ⟨some "1", ["q1"], false⟩ rfl
  have h2 := cloneReplicaIfNeeded_crash_safe true false
    ⟨some "1", ["q1"], false⟩ rfl
  exact ⟨h1.1.mpr ⟨by decide, by decide, by decide⟩, by decide,
    h2.2 (by decide)⟩

/-! Partition drops: `getFakePartCoveringAllPartsInPartition` (lines
4659-4705) and `dropAllPartsInPartition` (lines 6715-6780); merge/mutation
selection: `createLogEntryToMergeParts` (lines 3019-3105) and
`createLogEntryToMutatePart` (lines 3108-3164). -/

/-- Embeds `allocateBlockNumber` for one partition: the coordination service's
ephemeral sequential counter hands out the next number and increments; the
numbers previously allocated in the partition are exactly 0..ctr-1. -/
def allocateBlockNumber (ctr : Nat) : Nat × Nat := (ctr, ctr + 1)

/-- Embeds `getFakePartCoveringAllPartsInPartition`: allocate a delimiting
block number R; for the replace-range variant the covering info is
(partition_id, 0, R, MAX_LEVEL, MAX_BLOCK_NUMBER) and the call succeeds iff
R is nonzero; otherwise, R is first decremented (empty partition when R = 0)
and the covering info is (partition_id, 0, R-1, MAX_LEVEL,
MAX_BLOCK_NUMBER).  Returns the covering info on success together with the
advanced allocator counter. -/
def getFakePartCoveringAllPartsInPartition (partition_id : String) (ctr : Nat)
    (for_replace_range : Bool) : Option MergeTreePartInfo × Nat :=
  let left : Int := 0
  let alloc := allocateBlockNumber ctr
  let right : Int := alloc.1
  if for_replace_range then
    (if ¬ right = 0 then
        some ⟨partition_id, left, right, MAX_LEVEL, MAX_BLOCK_NUMBER⟩
      else none,
      alloc.2)
  else
    if right = 0 then (none, alloc.2)
    else
      (some ⟨partition_id, left, right - 1, MAX_LEVEL, MAX_BLOCK_NUMBER⟩,
        alloc.2)

/-- How `dropAllPartsInPartition` can end: the partition never had a block
number allocated (returns false, nothing appended); a DROP_RANGE log entry
with the covering fake part was appended in the version-checked multi-op; or
the multi-op hit ZBADVERSION on `alter_partition_version` and the
CANNOT_ASSIGN_ALTER exception was thrown to the caller. -/
inductive DropAllOutcome where
  | emptyPartition
  | created (drop_range : MergeTreePartInfo) (detach : Bool)
  | threwCannotAssignAlter
deriving DecidableEq, Repr

/-- Embeds `dropAllPartsInPartition`: compute the covering fake part; if the
partition is empty return false without appending anything; otherwise append
the DROP_RANGE entry in a multi-op that checks `alter_partition_version`
(`alterVersionUnchanged` tells whether that version check passes); on
ZBADVERSION throw CANNOT_ASSIGN_ALTER (lines 6768-6770). -/
def dropAllPartsInPartition (partition_id : String) (ctr : Nat)
    (detach : Bool) (alterVersionUnchanged : Bool) : DropAllOutcome × Nat :=
  match getFakePartCoveringAllPartsInPartition partition_id ctr false with
  | (none, c2) => (DropAllOutcome.emptyPartition, c2)
  | (some info, c2) =>
    if alterVersionUnchanged then (DropAllOutcome.created info detach, c2)
    else (DropAllOutcome.threwCannotAssignAlter, c2)

/-- Closed form of `getFakePartCoveringAllPartsInPartition`. -/
lemma getFakePart_eq (pid : String) (ctr : Nat) (frr : Bool) :
    getFakePartCoveringAllPartsInPartition pid ctr frr
      = (if ctr = 0 then none
         else some ⟨pid, 0, (if frr then (ctr : Int) else (ctr : Int) - 1),
           MAX_LEVEL, MAX_BLOCK_NUMBER⟩, ctr + 1) := by
  unfold getFakePartCoveringAllPartsInPartition allocateBlockNumber
  by_cases hc : ctr = 0
  · subst hc
    cases frr <;> simp
  · have hci : ¬ ((ctr : Int) = 0) := by exact_mod_cast hc
    cases frr <;> simp [hc, hci]

/-- C4: the synthetic covering part returned by
getFakePartCoveringAllPartsInPartition has min_block 0, max_block R-1 (R for
the replace-range variant), level MAX_LEVEL and mutation MAX_BLOCK_NUMBER,
and its block interval contains every block number previously allocated in
the partition; the call fails exactly when no block number was ever allocated
(R = 0), and then dropAllPartsInPartition appends no DROP_RANGE entry. -/
theorem getFakePartCoveringAllPartsInPartition_covers (pid : String)
    (ctr : Nat) (frr : Bool) :
    ((getFakePartCoveringAllPartsInPartition pid ctr frr).1 = none ↔ ctr = 0) ∧
    (∀ info : MergeTreePartInfo,
      (getFakePartCoveringAllPartsInPartition pid ctr frr).1 = some info →
      info.partition_id = pid ∧ info.min_block = 0 ∧
      info.max_block = (if frr then (ctr : Int) else (ctr : Int) - 1) ∧
      info.level = MAX_LEVEL ∧ info.mutation = MAX_BLOCK_NUMBER ∧
      (∀ k : Nat, k < ctr →
        info.min_block ≤ (k : Int) ∧ (k : Int) ≤ info.max_block)) ∧
    (∀ (detach alterOk : Bool), ctr = 0 →
      (dropAllPartsInPartition pid ctr detach alterOk).1
        = DropAllOutcome.emptyPartition) := by
  refine ⟨?_, ?_, ?_⟩
  · rw [getFakePart_eq]
    by_cases hc : ctr = 0 <;> simp [hc]
  · intro info h
    rw [getFakePart_eq] at h
    by_cases hc : ctr = 0
    · simp [hc] at h
    · simp only [hc, if_false] at h
      have h2 : (⟨pid, 0, (if frr then (ctr : Int) else (ctr : Int) - 1),
          MAX_LEVEL, MAX_BLOCK_NUMBER⟩ : MergeTreePartInfo) = info :=
        Option.some.inj h
      subst h2
      refine ⟨rfl, rfl, rfl, rfl, rfl, ?_⟩
      intro k hk
      have hki : (k : Int) < (ctr : Int) := by exact_mod_cast hk
      constructor
      · show (0 : Int) ≤ (k : Int)
        exact Int.ofNat_nonneg k
      · show (k : Int) ≤ (if frr then (ctr : Int) else (ctr : Int) - 1)
        have hci : ¬ ((ctr : Int) = 0) := by exact_mod_cast hc
        cases frr <;> simp <;> omega
  · intro detach alterOk h
    subst h
    rfl

/-- C4 witness: with three block numbers already allocated in partition p, the
covering fake part is (p, 0, 2, MAX_LEVEL, MAX_BLOCK_NUMBER) and covers
blocks 0 and 2; with none allocated, dropAllPartsInPartition appends no
entry. -/
theorem getFakePartCoveringAllPartsInPartition_covers_witness :
    (getFakePartCoveringAllPartsInPartition "p" 3 false).1
      = some ⟨"p", 0, 2, MAX_LEVEL, MAX_BLOCK_NUMBER⟩ ∧
    (0 : Int) ≤ 2 ∧ ((2 : Nat) : Int) ≤ 2 ∧
    (dropAllPartsInPartition "p" 0 false true).1
      = DropAllOutcome.emptyPartition := by
  have h := getFakePartCoveringAllPartsInPartition_covers "p" 3 false
  have hs : (getFakePartCoveringAllPartsInPartition "p" 3 false).1
      = some ⟨"p", 0, 2, MAX_LEVEL, MAX_BLOCK_NUMBER⟩ := by decide
  have hcov := (h.2.1 ⟨"p", 0, 2, MAX_LEVEL, MAX_BLOCK_NUMBER⟩ hs).2.2.2.2.2
    2 (by decide)
  have h0 := (getFakePartCoveringAllPartsInPartition_covers "p" 0 false).2.2
    false true rfl
  exact ⟨hs, hcov.1, hcov.2, h0⟩

/-- Result of `createLogEntryToMergeParts` / `createLogEntryToMutatePart`
(`CreateMergeEntryResult`; the `Fetching` variant is unused by the embedded
paths). -/
inductive CreateMergeEntryResult where
  | Ok
  | MissingPart
  | LogUpdated
deriving DecidableEq, Repr

/-- Modelled from the spec: `MAX_AGE_OF_LOCAL_PART_THAT_WASNT_ADDED_TO_ZOOKEEPER`
is declared in the class header, which is not among the sources: the staleness
threshold beyond which a local part that is absent from the coordination
service is enqueued for a consistency check. -/
def MAX_AGE_OF_LOCAL_PART_THAT_WASNT_ADDED_TO_ZOOKEEPER : Int := 5 * 60

/-- A candidate source part for a merge or mutation: its name and local
modification time. -/
structure SourcePart where
  name : MergeTreePartInfo
  modification_time : Int
deriving DecidableEq, Repr

/-- Embeds `createLogEntryToMergeParts` (lines 3019-3105): every source part
must exist under this replica's `parts` path; absent parts abort the selection
with MissingPart (no entry appended) and, when older than the staleness
threshold, are enqueued for a local consistency check; otherwise the entry is
appended under a version check on the shared log: ZOK gives Ok, ZBADVERSION
gives LogUpdated without appending and without an exception.  Returns the
result, the names enqueued for check, and whether a log entry was appended. -/
def createLogEntryToMergeParts (zkParts : List MergeTreePartInfo) (now : Int)
    (parts : List SourcePart) (logVersionUnchanged : Bool) :
    CreateMergeEntryResult × List MergeTreePartInfo × Bool :=
  let absent := parts.filter (fun p => ¬ p.name ∈ zkParts)
  let toCheck := (absent.filter (fun p =>
      p.modification_time
        + MAX_AGE_OF_LOCAL_PART_THAT_WASNT_ADDED_TO_ZOOKEEPER < now)).map
    (fun p => p.name)
  if ¬ absent = [] then (CreateMergeEntryResult.MissingPart, toCheck, false)
  else if logVersionUnchanged then (CreateMergeEntryResult.Ok, [], true)
  else (CreateMergeEntryResult.LogUpdated, [], false)

/-- Embeds `createLogEntryToMutatePart` (lines 3108-3164): same contract for a
single source part. -/
def createLogEntryToMutatePart (zkParts : List MergeTreePartInfo) (now : Int)
    (part : SourcePart) (logVersionUnchanged : Bool) :
    CreateMergeEntryResult × List MergeTreePartInfo × Bool :=
  if ¬ part.name ∈ zkParts then
    (CreateMergeEntryResult.MissingPart,
      if part.modification_time
          + MAX_AGE_OF_LOCAL_PART_THAT_WASNT_ADDED_TO_ZOOKEEPER < now then
        [part.name]
      else [],
      false)
  else if logVersionUnchanged then (CreateMergeEntryResult.Ok, [], true)
  else (CreateMergeEntryResult.LogUpdated, [], false)

/-- C5: before a MERGE_PARTS or MUTATE_PART entry is appended, every source
part is verified to exist under this replica's parts path: when the entry is
appended (Ok) all source parts are present; when some source part is absent
the result is MissingPart, no entry is appended, and an absent part older
than the staleness threshold is enqueued for a local consistency check. -/
theorem createLogEntry_missing_part (zkParts : List MergeTreePartInfo)
    (now : Int) (parts : List SourcePart) (lv : Bool) :
    ((createLogEntryToMergeParts zkParts now parts lv).1
        = CreateMergeEntryResult.Ok →
      ∀ p ∈ parts, p.name ∈ zkParts) ∧
    (∀ p ∈ parts, ¬ p.name ∈ zkParts →
      (createLogEntryToMergeParts zkParts now parts lv).1
          = CreateMergeEntryResult.MissingPart ∧
      (createLogEntryToMergeParts zkParts now parts lv).2.2 = false ∧
      (p.modification_time
          + MAX_AGE_OF_LOCAL_PART_THAT_WASNT_ADDED_TO_ZOOKEEPER < now →
        p.name ∈ (createLogEntryToMergeParts zkParts now parts lv).2.1)) ∧
    (∀ (part : SourcePart), ¬ part.name ∈ zkParts →
      (createLogEntryToMutatePart zkParts now part lv).1
          = CreateMergeEntryResult.MissingPart ∧
      (createLogEntryToMutatePart zkParts now part lv).2.2 = false ∧
      (part.modification_time
          + MAX_AGE_OF_LOCAL_PART_THAT_WASNT_ADDED_TO_ZOOKEEPER < now →
        part.name ∈ (createLogEntryToMutatePart zkParts now part lv).2.1)) := by
  refine ⟨?_, ?_, ?_⟩
  · intro hok p hp
    by_contra habs
    have hmem : p ∈ parts.filter (fun q => ¬ q.name ∈ zkParts) := by
      rw [List.mem_filter]
      exact ⟨hp, by simpa using habs⟩
    have hne : ¬ parts.filter (fun q => ¬ q.name ∈ zkParts) = [] := by
      intro h0
      rw [h0] at hmem
      cases hmem
    unfold createLogEntryToMergeParts at hok
    rw [if_pos hne] at hok
    cases hok
  · intro p hp habs
    have hmem : p ∈ parts.filter (fun q => ¬ q.name ∈ zkParts) := by
      rw [List.mem_filter]
      exact ⟨hp, by simpa using habs⟩
    have hne : ¬ parts.filter (fun q => ¬ q.name ∈ zkParts) = [] := by
      intro h0
      rw [h0] at hmem
      cases hmem
    unfold createLogEntryToMergeParts
    rw [if_pos hne]
    refine ⟨rfl, rfl, ?_⟩
    intro hstale
    rw [List.mem_map]
    refine ⟨p, ?_, rfl⟩
    rw [List.mem_filter]
    exact ⟨hmem, by simpa using hstale⟩
  · intro part habs
    unfold createLogEntryToMutatePart
    rw [if_pos habs]
    refine ⟨rfl, rfl, ?_⟩
    intro hstale
    rw [if_pos hstale]
    exact List.mem_singleton.mpr rfl

/-- C5 witness: a merge whose second source part has no coordination-service
node aborts with MissingPart, appends nothing, and enqueues the stale absent
part for a check. -/
theorem createLogEntry_missing_part_witness :
    (createLogEntryToMergeParts [part_1_1] 1000
        [⟨part_1_1, 900⟩, ⟨part_0_2, 0⟩] true).1
      = CreateMergeEntryResult.MissingPart ∧
    (createLogEntryToMergeParts [part_1_1] 1000
        [⟨part_1_1, 900⟩, ⟨part_0_2, 0⟩] true).2.2 = false ∧
    part_0_2 ∈ (createLogEntryToMergeParts [part_1_1] 1000
        [⟨part_1_1, 900⟩, ⟨part_0_2, 0⟩] true).2.1 := by
  have h := (createLogEntry_missing_part [part_1_1] 1000
    [⟨part_1_1, 900⟩, ⟨part_0_2, 0⟩] true).2.1 ⟨part_0_2, 0⟩
    (by decide) (by decide)
  exact ⟨h.1, h.2.1, h.2.2 (by decide)⟩

/-- C6 (amended): a version conflict during merge or mutation selection is a
silent reschedule: the multi-op hitting ZBADVERSION on the shared log yields
LogUpdated with nothing appended and no exception; but a DROP PARTITION
losing the `alter_partition_version` race does surface the conflict: the
multi-op result ZBADVERSION makes dropAllPartsInPartition throw
CANNOT_ASSIGN_ALTER to the caller instead of retrying. -/
theorem createLogEntry_version_conflict (zkParts : List MergeTreePartInfo)
    (now : Int) (parts : List SourcePart) (part : SourcePart) (pid : String)
    (ctr : Nat) (detach : Bool) :
    ((∀ p ∈ parts, p.name ∈ zkParts) →
      (createLogEntryToMergeParts zkParts now parts false).1
          = CreateMergeEntryResult.LogUpdated ∧
      (createLogEntryToMergeParts zkParts now parts false).2.2 = false) ∧
    (part.name ∈ zkParts →
      (createLogEntryToMutatePart zkParts now part false).1
          = CreateMergeEntryResult.LogUpdated ∧
      (createLogEntryToMutatePart zkParts now part false).2.2 = false) ∧
    (¬ ctr = 0 →
      (dropAllPartsInPartition pid ctr detach false).1
        = DropAllOutcome.threwCannotAssignAlter) := by
  refine ⟨?_, ?_, ?_⟩
  · intro hall
    have hemp : parts.filter (fun q => ¬ q.name ∈ zkParts) = [] := by
      rw [List.filter_eq_nil_iff]
      intro p hp
      simpa using hall p hp
    unfold createLogEntryToMergeParts
    rw [if_neg (not_not_intro hemp), if_neg (by simp)]
    exact ⟨rfl, rfl⟩
  · intro hmem
    unfold createLogEntryToMutatePart
    rw [if_neg (not_not_intro hmem), if_neg (by simp)]
    exact ⟨rfl, rfl⟩
  · intro hc
    unfold dropAllPartsInPartition
    rw [getFakePart_eq, if_neg hc]
    simp

/-- C6 witness: with both source parts registered, losing the log version
race yields LogUpdated with nothing appended; a nonempty partition drop
losing the alter_partition_version race throws CANNOT_ASSIGN_ALTER. -/
theorem createLogEntry_version_conflict_witness :
    (createLogEntryToMergeParts [part_1_1, part_0_2] 1000
        [⟨part_1_1, 900⟩, ⟨part_0_2, 0⟩] false).1
      = CreateMergeEntryResult.LogUpdated ∧
    (createLogEntryToMergeParts [part_1_1, part_0_2] 1000
        [⟨part_1_1, 900⟩, ⟨part_0_2, 0⟩] false).2.2 = false ∧
    (dropAllPartsInPartition "p" 5 false false).1
      = DropAllOutcome.threwCannotAssignAlter := by
  have h := createLogEntry_version_conflict [part_1_1, part_0_2] 1000
    [⟨part_1_1, 900⟩, ⟨part_0_2, 0⟩] ⟨part_1_1, 900⟩ "p" 5 false
  have h1 := h.1 (by decide)
  exact ⟨h1.1, h1.2, h.2.2 (by decide)⟩

/-- C6, counterexample to the claim as stated: a DROP PARTITION on a nonempty
partition whose alter_partition_version check fails is surfaced to the caller
as an immediate CANNOT_ASSIGN_ALTER exception, not retried locally. -/
theorem dropAllPartsInPartition_conflict_throws :
    (dropAllPartsInPartition "p" 5 false false).1
      = DropAllOutcome.threwCannotAssignAlter := by decide

/-! Part commit checksum verification: `checkPartChecksumsAndAddCommitOps`
(lines 1282-1382) and `checkPartChecksumsAndCommit` (lines 1384-1434). -/

/-- A part header as recorded in the coordination service
(`ReplicatedMergeTreePartHeader`): the hash of the columns and the checksums.
Both storage formats (single znode, or separate columns/checksums child
znodes) yield such a header for comparison; checksums are abstracted to an
opaque comparable value.  Modelled from the spec for the checksums half:
`MergeTreeDataPartChecksums::checkEqual` is declared outside the sources and
per the spec a checksum difference is a hard CHECKSUM_DOESNT_MATCH error. -/
structure ReplicatedMergeTreePartHeader where
  columnsHash : Nat
  checksums : Nat
deriving DecidableEq, Repr

/-- The correctness exception of the commit path. -/
inductive CommitError where
  | CHECKSUM_DOESNT_MATCH
deriving DecidableEq, Repr

/-- The per-replica scan of `checkPartChecksumsAndAddCommitOps`: walk the
replicas with the header each has recorded for this part name (none when the
replica has no node for it); a recorded header with a different columns hash
throws CHECKSUM_DOESNT_MATCH (line 1337), a recorded header with different
checksums throws from `checkEqual` (line 1340); a replica without the part is
collected as absent; in sequential mode (`absent_replicas_paths` given, the
commit path) the scan stops at the first replica with a matching header,
clearing the absent set.  Returns (has_been_already_added, absent). -/
def checkPartChecksumsLoop (localHeader : ReplicatedMergeTreePartHeader)
    (self : String) (sequential : Bool) :
    List (String × Option ReplicatedMergeTreePartHeader) → Bool →
    List String → Except CommitError (Bool × List String)
  | [], added, absent => Except.ok (added, absent)
  | (r, none) :: rest, added, absent =>
    checkPartChecksumsLoop localHeader self sequential rest added
      (absent ++ [r])
  | (r, some h) :: rest, added, absent =>
    if ¬ h.columnsHash = localHeader.columnsHash then
      Except.error CommitError.CHECKSUM_DOESNT_MATCH
    else if ¬ h.checksums = localHeader.checksums then
      Except.error CommitError.CHECKSUM_DOESNT_MATCH
    else
      let added1 := added || decide (r = self)
      if sequential then Except.ok (added1, [])
      else checkPartChecksumsLoop localHeader self sequential rest added1 absent

/-- Embeds `checkPartChecksumsAndAddCommitOps`. -/
def checkPartChecksumsAndAddCommitOps
    (localHeader : ReplicatedMergeTreePartHeader) (self : String)
    (sequential : Bool)
    (replicas : List (String × Option ReplicatedMergeTreePartHeader)) :
    Except CommitError (Bool × List String) :=
  checkPartChecksumsLoop localHeader self sequential replicas false []

/-- Embeds the retry loop of `checkPartChecksumsAndCommit`: each attempt
re-runs the checksum scan on a fresh view of the replicas; an exception from
the scan propagates to the caller (it is raised before the try block around
the multi-op); the multi-op is retried only when a part suddenly appeared on
a previously absent replica (ZNODEEXISTS on a check op, line 1426), otherwise
the transaction commits.  Attempts are (view, appearedConflict) pairs; Ok
true means committed. -/
def checkPartChecksumsAndCommit (localHeader : ReplicatedMergeTreePartHeader)
    (self : String) :
    List (List (String × Option ReplicatedMergeTreePartHeader) × Bool) →
    Except CommitError Bool
  | [] => Except.ok false
  | (view, appeared) :: rest =>
    match checkPartChecksumsAndAddCommitOps localHeader self true view with
    | Except.error e => Except.error e
    | Except.ok _ =>
      if appeared then checkPartChecksumsAndCommit localHeader self rest
      else Except.ok true

lemma checkPartChecksumsLoop_mismatch
    (localHeader hdr : ReplicatedMergeTreePartHeader) (self r : String)
    (sequential : Bool)
    (hdiff : ¬ hdr.columnsHash = localHeader.columnsHash
      ∨ ¬ hdr.checksums = localHeader.checksums) :
    ∀ (pre post : List (String × Option ReplicatedMergeTreePartHeader)),
    (∀ x ∈ pre, x.2 = none) →
    ∀ (added : Bool) (absent : List String),
    checkPartChecksumsLoop localHeader self sequential
        (pre ++ (r, some hdr) :: post) added absent
      = Except.error CommitError.CHECKSUM_DOESNT_MATCH
  | [], post, hpre, added, absent => by
    show checkPartChecksumsLoop localHeader self sequential
        ((r, some hdr) :: post) added absent = _
    unfold checkPartChecksumsLoop
    by_cases hcol : ¬ hdr.columnsHash = localHeader.columnsHash
    · rw [if_pos hcol]
    · rw [if_neg hcol]
      have hck : ¬ hdr.checksums = localHeader.checksums := by
        rcases hdiff with h | h
        · exact absurd h hcol
        · exact h
      rw [if_pos hck]
  | (r0, h0) :: pre, post, hpre, added, absent => by
    have h0none : h0 = none := hpre (r0, h0) (List.mem_cons_self _ _)
    subst h0none
    show checkPartChecksumsLoop localHeader self sequential
        ((r0, none) :: (pre ++ (r, some hdr) :: post)) added absent = _
    unfold checkPartChecksumsLoop
    exact checkPartChecksumsLoop_mismatch localHeader hdr self r sequential
      hdiff pre post (fun x hx => hpre x (List.mem_cons_of_mem _ hx)) added
      (absent ++ [r0])

/-- C7: if another replica has already recorded a header for the same part
name whose columns hash or checksums differ from the local part's (the
replicas scanned before it having no recorded header), the commit raises
CHECKSUM_DOESNT_MATCH: checkPartChecksumsAndAddCommitOps throws, and
checkPartChecksumsAndCommit surfaces that same exception to its caller at
once — under every retry schedule, never converting it into a silent retry. -/
theorem checkPartChecksums_mismatch_fatal
    (localHeader hdr : ReplicatedMergeTreePartHeader) (self r : String)
    (sequential : Bool)
    (pre post : List (String × Option ReplicatedMergeTreePartHeader))
    (hpre : ∀ x ∈ pre, x.2 = none)
    (hdiff : ¬ hdr.columnsHash = localHeader.columnsHash
      ∨ ¬ hdr.checksums = localHeader.checksums) :
    checkPartChecksumsAndAddCommitOps localHeader self sequential
        (pre ++ (r, some hdr) :: post)
      = Except.error CommitError.CHECKSUM_DOESNT_MATCH ∧
    (∀ (appeared : Bool)
      (rest : List
        (List (String × Option ReplicatedMergeTreePartHeader) × Bool)),
      checkPartChecksumsAndCommit localHeader self
          ((pre ++ (r, some hdr) :: post, appeared) :: rest)
        = Except.error CommitError.CHECKSUM_DOESNT_MATCH) := by
  have hops : checkPartChecksumsAndAddCommitOps localHeader self sequential
      (pre ++ (r, some hdr) :: post)
      = Except.error CommitError.CHECKSUM_DOESNT_MATCH :=
    checkPartChecksumsLoop_mismatch localHeader hdr self r sequential hdiff
      pre post hpre false []
  have hops1 : checkPartChecksumsAndAddCommitOps localHeader self true
      (pre ++ (r, some hdr) :: post)
      = Except.error CommitError.CHECKSUM_DOESNT_MATCH :=
    checkPartChecksumsLoop_mismatch localHeader hdr self r true hdiff
      pre post hpre false []
  refine ⟨hops, ?_⟩
  intro appeared rest
  unfold checkPartChecksumsAndCommit
  rw [hops1]

/-- C7 witness: a local part with checksums differing from the header replica
r2 already recorded makes the commit fail with CHECKSUM_DOESNT_MATCH even
with retries available. -/
theorem checkPartChecksums_mismatch_fatal_witness :
    checkPartChecksumsAndAddCommitOps ⟨1, 1⟩ "r1" true [("r2", some ⟨1, 2⟩)]
      = Except.error CommitError.CHECKSUM_DOESNT_MATCH ∧
    checkPartChecksumsAndCommit ⟨1, 1⟩ "r1"
        [([("r2", some ⟨1, 2⟩)], true), ([("r2", some ⟨1, 2⟩)], false)]
      = Except.error CommitError.CHECKSUM_DOESNT_MATCH := by
  have h := checkPartChecksums_mismatch_fatal ⟨1, 1⟩ ⟨1, 2⟩ "r1" "r2" true
    [] [] (by intro x hx; cases hx) (Or.inr (by decide))
  exact ⟨h.1, h.2 true [([("r2", some ⟨1, 2⟩)], false)]⟩

/-! REPLACE_RANGE semantics:
`makeDummyDropRangeForMovePartitionOrAttachPartitionFrom` (lines 235-253) and
the MOVE/ATTACH-versus-REPLACE decision of `executeReplaceRange`
(lines 1865-1877). -/

/-- Embeds `makeDummyDropRangeForMovePartitionOrAttachPartitionFrom`: the
dummy drop range (partition_id, 0, 0, level 0, mutation 0). -/
def makeDummyDropRangeForMovePartitionOrAttachPartitionFrom
    (partition_id : String) : MergeTreePartInfo :=
  { partition_id := partition_id
    min_block := 0
    max_block := 0
    level := 0
    mutation := 0 }

/-- Modelled from the spec:
`LogEntry::ReplaceRangeEntry::isMovePartitionOrAttachFrom` is declared in a
header that is not among the sources; per the source comments (a drop range
with only one block means ATTACH/MOVE PARTITION, line 1866; a drop range for
REPLACE PARTITION contains at least 2 blocks while the MOVE/ATTACH one always
contains 1 block, lines 4687-4689), it tests whether the drop range covers
exactly one block. -/
def isMovePartitionOrAttachFrom (drop_range : MergeTreePartInfo) : Bool :=
  blocksCount drop_range = 1

/-- Embeds the semantics decision of `executeReplaceRange` (line 1867): the
entry drops existing parts (REPLACE semantics) iff the drop range is not the
one-block MOVE/ATTACH dummy; otherwise the drop range is ignored
(`drop_range = {}`, line 1876) and nothing is dropped. -/
def executeReplaceRangeReplaces (drop_range : MergeTreePartInfo) : Bool :=
  ¬ isMovePartitionOrAttachFrom drop_range

/-- C8: a REPLACE_RANGE entry is executed with MOVE/ATTACH semantics (drop
range ignored, nothing dropped) iff its drop range covers the single-block
fake interval; the dummy drop range built for MOVE PARTITION / ATTACH
PARTITION FROM is exactly (partition_id, 0, 0, 0, 0) and takes MOVE/ATTACH
semantics, while a drop range built by
getFakePartCoveringAllPartsInPartition for a real REPLACE PARTITION always
contains at least 2 blocks and takes REPLACE semantics, so the two cases
never coincide. -/
theorem executeReplaceRange_move_attach_distinction (pid : String)
    (ctr : Nat) :
    (makeDummyDropRangeForMovePartitionOrAttachPartitionFrom pid
      = ⟨pid, 0, 0, 0, 0⟩) ∧
    (∀ dr : MergeTreePartInfo,
      executeReplaceRangeReplaces dr = false ↔ blocksCount dr = 1) ∧
    (executeReplaceRangeReplaces
        (makeDummyDropRangeForMovePartitionOrAttachPartitionFrom pid)
      = false) ∧
    (∀ info : MergeTreePartInfo,
      (getFakePartCoveringAllPartsInPartition pid ctr true).1 = some info →
      2 ≤ blocksCount info ∧ executeReplaceRangeReplaces info = true) := by
  refine ⟨rfl, ?_, ?_, ?_⟩
  · intro dr
    unfold executeReplaceRangeReplaces isMovePartitionOrAttachFrom
    constructor
    · intro h
      by_contra hne
      simp [hne] at h
    · intro h
      simp [h]
  · unfold executeReplaceRangeReplaces isMovePartitionOrAttachFrom
      makeDummyDropRangeForMovePartitionOrAttachPartitionFrom blocksCount
    simp
  · intro info h
    rw [getFakePart_eq] at h
    by_cases hc : ctr = 0
    · simp [hc] at h
    · simp only [hc, if_false] at h
      have h2 : (⟨pid, 0, (if true then (ctr : Int) else (ctr : Int) - 1),
          MAX_LEVEL, MAX_BLOCK_NUMBER⟩ : MergeTreePartInfo) = info :=
        Option.some.inj h
      subst h2
      have hge : (1 : Int) ≤ (ctr : Int) := by
        have : 1 ≤ ctr := Nat.one_le_iff_ne_zero.mpr hc
        exact_mod_cast this
      constructor
      · show (2 : Int) ≤ (ctr : Int) - 0 + 1
        omega
      · unfold executeReplaceRangeReplaces isMovePartitionOrAttachFrom
          blocksCount
        simp only []
        have hne : ¬ ((ctr : Int) - 0 + 1 = 1) := by omega
        simp [hne]
        exact hc

/-- C8 witness: with two blocks allocated in partition p, the replace drop
range covers 3 blocks and takes REPLACE semantics, while the dummy covers one
block and takes MOVE/ATTACH semantics. -/
theorem executeReplaceRange_move_attach_distinction_witness :
    executeReplaceRangeReplaces
        (makeDummyDropRangeForMovePartitionOrAttachPartitionFrom "p")
      = false ∧
    (2 : Int) ≤ blocksCount ⟨"p", 0, 2, MAX_LEVEL, MAX_BLOCK_NUMBER⟩ ∧
    executeReplaceRangeReplaces ⟨"p", 0, 2, MAX_LEVEL, MAX_BLOCK_NUMBER⟩
      = true := by
  have h := executeReplaceRange_move_attach_distinction "p" 2
  have hs : (getFakePartCoveringAllPartsInPartition "p" 2 true).1
      = some ⟨"p", 0, 2, MAX_LEVEL, MAX_BLOCK_NUMBER⟩ := by decide
  have h4 := h.2.2.2 ⟨"p", 0, 2, MAX_LEVEL, MAX_BLOCK_NUMBER⟩ hs
  exact ⟨h.2.2.1, h4.1, h4.2⟩

end RMT
